import Mathlib

/-!
Shallow embedding of the `doublet` crate: a single-writer multi-reader
double-buffering primitive.  `src/toggle.rs` packs a `{side, count}` state
into one 64-bit machine word; `src/lib.rs` builds the reader/writer
acquisition and release protocols on top of it.  Machine words are modelled
as `Nat` kept below `2 ^ 64`, with wrapping arithmetic made explicit where
the source relies on it.
-/

namespace Doublet

/-- Word width of the target: the crate is compiled for
`target_pointer_width = "64"`. -/
def WORD : Nat := 2 ^ 64

/-- `usize::max_value()` on a 64-bit target. -/
def USIZE_MAX : Nat := 2 ^ 64 - 1

/-- `State::MASK` for `target_pointer_width = "64"` (`0x7FFF_FFFF_FFFF_FFFF`). -/
def MASK : Nat := 2 ^ 63 - 1

/-- `!State::MASK` on a 64-bit `usize`: the bitwise complement of `MASK`,
which is exactly the top bit `0x8000_0000_0000_0000`. -/
def NOTMASK : Nat := 2 ^ 63

/-- `Side` from `src/toggle.rs`. -/
inductive Side where
  | Left
  | Right
deriving DecidableEq, Repr

/-- `impl Not for Side` from `src/toggle.rs`. -/
def Side.not : Side → Side
  | .Left => .Right
  | .Right => .Left

/-- `State` from `src/toggle.rs`: decoded toggle word. -/
structure State where
  side : Side
  count : Nat
deriving DecidableEq, Repr

/-- `State::from_usize` from `src/toggle.rs`: the side is the top bit
(`v & !MASK`), the count the remaining bits (`v & MASK`). -/
def State.from_usize (v : Nat) : State :=
  { side := if v &&& NOTMASK = 0 then .Left else .Right
    count := v &&& MASK }

/-- `State::to_usize` from `src/toggle.rs`: starts from `count` and sets
the top bit (`value |= !MASK`) when the side is `Right`. -/
def State.to_usize (s : State) : Nat :=
  if s.side = .Right then s.count ||| NOTMASK else s.count

theorem Side.not_not (s : Side) : s.not.not = s := by
  cases s <;> rfl

theorem Side.eq_not_of_ne {a b : Side} (h : a ≠ b) : a = b.not := by
  cases a <;> cases b <;> simp_all [Side.not]

/-- Masking with `MASK` is reduction mod `2 ^ 63`. -/
theorem land_MASK (v : Nat) : v &&& MASK = v % 2 ^ 63 := by
  have := Nat.and_pow_two_sub_one_eq_mod v 63
  simpa [MASK] using this

/-- Testing the top bit: `v &&& NOTMASK` is zero exactly when bit 63 of `v`
is clear. -/
theorem land_NOTMASK (v : Nat) : v &&& NOTMASK = (v.testBit 63).toNat * 2 ^ 63 := by
  have := Nat.and_two_pow v 63
  simpa [NOTMASK] using this

theorem from_usize_count_le (v : Nat) : (State.from_usize v).count ≤ MASK := by
  simpa [State.from_usize] using Nat.and_le_right

/-- Setting the top bit over a small count is addition. -/
theorem lor_NOTMASK {c : Nat} (h : c < 2 ^ 63) : c ||| NOTMASK = c + 2 ^ 63 := by
  have h2 := Nat.mul_add_lt_is_or h 1
  have : 2 ^ 63 * 1 + c = 2 ^ 63 * 1 ||| c := h2
  simpa [NOTMASK, Nat.or_comm, Nat.add_comm] using this.symm

theorem testBit63_eq_false {v : Nat} (h : v < 2 ^ 63) : v.testBit 63 = false :=
  Nat.testBit_eq_false_of_lt h

theorem testBit63_eq_true {v : Nat} (h1 : 2 ^ 63 ≤ v) (h2 : v < 2 ^ 64) :
    v.testBit 63 = true := by
  rw [Nat.testBit_to_div_mod]
  have hd : v / 2 ^ 63 = 1 := by omega
  rw [hd]
  rfl

theorem to_usize_Left (c : Nat) : (State.mk .Left c).to_usize = c := rfl

theorem to_usize_Right (c : Nat) : (State.mk .Right c).to_usize = c ||| NOTMASK := rfl

/-- Encoding a state whose count fits below the top bit. -/
theorem to_usize_eq (s : State) (h : s.count < 2 ^ 63) :
    s.to_usize = s.count + (if s.side = .Right then 2 ^ 63 else 0) := by
  obtain ⟨side, count⟩ := s
  cases side
  · rw [to_usize_Left]
    simp
  · rw [to_usize_Right, lor_NOTMASK h]
    simp

/-- Decoding after encoding returns the state unchanged, provided the count
fits in the 63 available bits. -/
theorem from_usize_to_usize (s : State) (h : s.count ≤ MASK) :
    State.from_usize s.to_usize = s := by
  have hc : s.count < 2 ^ 63 := by
    simp only [MASK] at h
    omega
  rw [to_usize_eq s hc]
  obtain ⟨side, count⟩ := s
  simp only at hc
  cases side
  · simp only [reduceIte, Nat.add_zero, State.from_usize]
    have h1 : count &&& NOTMASK = 0 := by
      rw [land_NOTMASK, testBit63_eq_false hc]
      rfl
    have h2 : count &&& MASK = count := by
      rw [land_MASK]
      exact Nat.mod_eq_of_lt hc
    simp [h1, h2]
  · simp only [reduceIte, State.from_usize, State.mk.injEq]
    have hbit : (count + 2 ^ 63).testBit 63 = true :=
      testBit63_eq_true (by omega) (by omega)
    rw [land_NOTMASK, land_MASK, hbit]
    constructor
    · rw [if_neg (by simp)]
    · omega

/-- Encoding after decoding returns the word unchanged, provided the word
fits in 64 bits. -/
theorem to_usize_from_usize (v : Nat) (h : v < WORD) :
    (State.from_usize v).to_usize = v := by
  have h64 : v < 2 ^ 64 := h
  have hcount : (State.from_usize v).count = v % 2 ^ 63 := land_MASK v
  have hmod : v % 2 ^ 63 < 2 ^ 63 := Nat.mod_lt _ (by norm_num)
  rw [to_usize_eq _ (by rw [hcount]; exact hmod), hcount]
  rcases Nat.lt_or_ge v (2 ^ 63) with hlt | hge
  · have hside : (State.from_usize v).side = .Left := by
      simp only [State.from_usize]
      rw [land_NOTMASK, testBit63_eq_false hlt]
      rfl
    rw [hside, if_neg (by decide)]
    omega
  · have hside : (State.from_usize v).side = .Right := by
      simp only [State.from_usize]
      rw [land_NOTMASK, testBit63_eq_true hge h64]
      simp
    rw [hside]
    simp only [reduceIte]
    omega

theorem to_usize_lt (s : State) (h : s.count ≤ MASK) : s.to_usize < WORD := by
  have hc : s.count < 2 ^ 63 := by
    simp only [MASK] at h
    omega
  rw [to_usize_eq s hc]
  simp only [WORD]
  cases hs : s.side <;> simp <;> omega

/-! ### Embedding of `src/lib.rs` -/

/-- Wrapping 64-bit subtraction, as performed by `AtomicUsize::fetch_sub`. -/
def usub (a b : Nat) : Nat := (a + (WORD - b % WORD)) % WORD

theorem usub_one {a : Nat} (h1 : 1 ≤ a) (h2 : a < WORD) : usub a 1 = a - 1 := by
  simp only [usub, WORD] at *
  omega

theorem usub_eq_sub {a b : Nat} (h1 : b ≤ a) (h2 : a < WORD) : usub a b = a - b := by
  simp only [usub, WORD] at *
  omega

/-- The shared state of one doublet: the packed toggle word
(`Header.toggle`), the drain counter (`Header.remaining_readers`), and the
two byte buffers of `size` bytes each. -/
structure DState where
  toggle : Nat
  drain : Nat
  size : Nat
  left_buffer : List Nat
  right_buffer : List Nat
deriving DecidableEq, Repr

/-- `Doublet::buffer_ptr`: select the buffer for a side. -/
def DState.buffer_ptr (s : DState) : Side → List Nat
  | .Left => s.left_buffer
  | .Right => s.right_buffer

/-- Well-formedness: the buffers hold exactly `size` bytes each and the two
atomic words hold machine-representable values. -/
def DState.WF (s : DState) : Prop :=
  s.left_buffer.length = s.size ∧ s.right_buffer.length = s.size ∧
  s.toggle < WORD ∧ s.drain < WORD

/-- The two failure conditions of `Reader::try_lock` (both are `Err(())` in
the source; the labels name the two distinct early-return sites). -/
inductive ReadErr where
  | exhausted
  | contended
deriving DecidableEq, Repr

/-- The failure condition of `Writer::try_lock` (`Err(())` in the source). -/
inductive WriteErr where
  | contended
deriving DecidableEq, Repr

/-- The observable content of a `ReadGuard`: the side it attached to and the
byte slice it exposes. -/
structure ReadGuard where
  reading_from : Side
  buffer : List Nat
deriving DecidableEq, Repr

/-- The observable content of a `WriteGuard`: whether the `writer` field is
still `Some` (no terminal action has run yet), the side being written, and
the slice exposed. -/
structure WriteGuard where
  writer_present : Bool
  writing_to : Side
  buffer : List Nat
deriving DecidableEq, Repr

/-- `ToggleCount::compare_and_swap`: a compare-and-swap on the packed word.
`cell` is the word held by the atomic when the instruction executes; the
result is the decoded previous value together with the word held
afterwards. -/
def ToggleCount.compare_and_swap (cell : Nat) (current new : State) : State × Nat :=
  if cell = current.to_usize then (State.from_usize cell, new.to_usize)
  else (State.from_usize cell, cell)

/-- `Reader::try_lock`.  `interfere` gives the packed word installed by
concurrent threads between this thread's load and its compare-and-swap
(`none`: the word is unchanged). -/
def reader_try_lock (s : DState) (interfere : Option Nat) :
    Except ReadErr (ReadGuard × DState) :=
  let original := State.from_usize s.toggle
  if original.count = USIZE_MAX - 1 then .error .exhausted
  else
    let new : State := { original with count := original.count + 1 }
    let cell := interfere.getD s.toggle
    let res := ToggleCount.compare_and_swap cell original new
    if res.1 ≠ original then .error .contended
    else .ok ({ reading_from := new.side, buffer := s.buffer_ptr new.side },
              { s with toggle := res.2 })

/-- `impl Drop for ReadGuard`.  `interf` lists, for each loop iteration, the
packed word installed by concurrent threads between that iteration's load
and its compare-and-swap; once the trace runs out the word is no longer
disturbed, so a compare-and-swap against a freshly loaded word succeeds
(encode/decode of a 64-bit word is exact).  Returns the toggle word and the
drain counter after the drop. -/
def read_guard_drop (reading_from : Side) (toggle drain : Nat)
    (interf : List Nat) : Nat × Nat :=
  match interf with
  | [] =>
    let original := State.from_usize toggle
    if original.side ≠ reading_from then (toggle, usub drain 1)
    else (State.to_usize { original with count := original.count - 1 }, drain)
  | t :: rest =>
    let original := State.from_usize toggle
    if original.side ≠ reading_from then (toggle, usub drain 1)
    else
      let new : State := { original with count := original.count - 1 }
      let res := ToggleCount.compare_and_swap t original new
      if res.1 = original then (res.2, drain)
      else read_guard_drop reading_from t drain rest

/-- `Writer::try_lock`: one compare-and-swap of the drain counter from `0`
to `usize::max_value()`. -/
def writer_try_lock (s : DState) : Except WriteErr (WriteGuard × DState) :=
  let old := s.drain
  if 0 = old then
    let toggle := State.from_usize s.toggle
    let writing_to := toggle.side.not
    .ok ({ writer_present := true, writing_to := writing_to,
           buffer := s.buffer_ptr writing_to },
         { s with drain := USIZE_MAX })
  else .error .contended

/-- Writing bytes `v` through the `WriteGuard`'s mutable slice: the slice
aliases the buffer on `side`, so that buffer takes the new contents. -/
def write_buffer (s : DState) (side : Side) (v : List Nat) : DState :=
  match side with
  | .Left => { s with left_buffer := v }
  | .Right => { s with right_buffer := v }

/-- The drain-installation loop of `WriteGuard::activate`.  `prev` is the
loop's `prev_readers` variable, `drain` the drain counter's current value,
and `decs` the number of stale-reader decrements (each a wrapping
`fetch_sub(1)`) applied to the counter before each successive
compare-and-swap attempt; once the trace runs out the counter is no longer
disturbed and the loop terminates with the value recomputed from its last
observation.  Returns the installed value
`original.count - (usize::max_value() - observed)`. -/
def activate_install (count : Nat) (prev drain : Nat) (decs : List Nat) : Nat :=
  match decs with
  | [] => count - (USIZE_MAX - drain)
  | k :: rest =>
    let d := usub drain k
    if prev = d then count - (USIZE_MAX - d)
    else activate_install count d d rest

/-- `WriteGuard::activate`: swap the toggle word to
`{side: writing_to, count: 0}`, capturing the previous state, then install
the captured reader count into the drain counter through the retry loop
seeded with `prev_readers = usize::max_value()`.  `decs` is the loop's
interference trace (see `activate_install`). -/
def activate (s : DState) (writing_to : Side) (decs : List Nat) : DState :=
  let new : State := { side := writing_to, count := 0 }
  let original := State.from_usize s.toggle
  { s with toggle := new.to_usize
           drain := activate_install original.count USIZE_MAX s.drain decs }

/-- `impl Drop for WriteGuard`: when `activate` has not consumed the guard
(`writer` is still `Some`), store `0` into the drain counter; otherwise the
`take` yields `None` and the drop returns immediately. -/
def write_guard_drop (g : WriteGuard) (s : DState) : DState :=
  if g.writer_present then { s with drain := 0 } else s

/-- `OwnedDoublet`: owns the header fields and both buffers, plus the
mutex-protected `has_writer` flag. -/
structure OwnedDoublet where
  toggle : Nat
  remaining_readers : Nat
  left_buffer : List Nat
  right_buffer : List Nat
  has_writer : Bool
deriving DecidableEq, Repr

/-- `OwnedDoublet::new`: zero-filled buffers, zeroed header, writer
available. -/
def OwnedDoublet.new (size : Nat) : OwnedDoublet :=
  { toggle := 0, remaining_readers := 0,
    left_buffer := List.replicate size 0,
    right_buffer := List.replicate size 0,
    has_writer := true }

/-- `OwnedDoublet::make_doublet`: the non-owning view over the shared header
and buffers. -/
def OwnedDoublet.make_doublet (o : OwnedDoublet) : DState :=
  { toggle := o.toggle, drain := o.remaining_readers,
    size := o.left_buffer.length,
    left_buffer := o.left_buffer, right_buffer := o.right_buffer }

/-- `OwnedDoublet::take_writer`: consult and clear the `has_writer` flag
under the mutex; the result pairs the returned writer view (if any) with the
allocation afterwards. -/
def OwnedDoublet.take_writer (o : OwnedDoublet) : Option DState × OwnedDoublet :=
  if o.has_writer then (some o.make_doublet, { o with has_writer := false })
  else (none, o)

/-- `OwnedDoublet::reader`: a fresh reader view over the shared state. -/
def OwnedDoublet.reader (o : OwnedDoublet) : DState :=
  o.make_doublet

/-- The allocation after `n` calls to `take_writer`. -/
def OwnedDoublet.after_take_writer (o : OwnedDoublet) : Nat → OwnedDoublet
  | 0 => o
  | n + 1 => ((o.after_take_writer n).take_writer).2

/-- The result of the call to `take_writer` made after `n` earlier calls. -/
def OwnedDoublet.nth_take_writer (o : OwnedDoublet) (n : Nat) : Option DState :=
  ((o.after_take_writer n).take_writer).1

/-- `std::mem::size_of::<Header>()` on a 64-bit target: one packed toggle
word plus one drain word, `repr(C)`, no padding. -/
def header_size : Nat := 8 + 8

/-- `raw_size` from `src/lib.rs`. -/
def raw_size (buffer_size : Nat) : Nat := header_size + buffer_size * 2

/-- The layout produced by `Doublet::from_raw_parts`: the buffer size and
the byte offsets of the two buffers inside the raw region. -/
structure RawLayout where
  size : Nat
  left_offset : Nat
  right_offset : Nat
deriving DecidableEq, Repr

/-- `Doublet::from_raw_parts` (its layout arithmetic; the pointer itself has
no counterpart in the model).  The `Err(())` is the `InvalidLayout`
condition: the region is not strictly larger than the header, or the
remainder does not split evenly in two. -/
def from_raw_parts (size : Nat) : Except Unit RawLayout :=
  if size ≤ header_size then .error ()
  else
    let rest := size - header_size
    if 0 ≠ rest % 2 then .error ()
    else
      let buffer_size := rest / 2
      .ok { size := buffer_size, left_offset := header_size,
            right_offset := header_size + buffer_size }

/-! ### Protocol-level model

Sequential interleavings of the protocol's atomic operations, for the
underflow-safety claims.  The shared state is tracked in decoded form
(`side`/`count` instead of the packed word — the packing round-trips
exactly, see `from_usize_to_usize`), together with the multiset of live
`ReadGuard`s (each recorded by the side it attached to) and the writer's
control point.  Loads and failed compare-and-swaps do not change the shared
state, so only the state-changing atomic steps appear as transitions; a
successful compare-and-swap observes the value it replaces at the moment it
executes. -/

/-- The single writer's control point: no guard held, a `WriteGuard` held
before `activate`'s swap (recording its `writing_to` side), or inside
`activate` between the toggle swap and the successful drain installation
(recording the captured `original.count`). -/
inductive WriterPhase where
  | idle
  | locked (writing_to : Side)
  | midActivate (original_count : Nat)
deriving DecidableEq, Repr

/-- A protocol state: decoded toggle state, drain counter, the sides of the
live read guards, and the writer's control point. -/
structure Sys where
  side : Side
  count : Nat
  drain : Nat
  guards : List Side
  writer : WriterPhase
deriving DecidableEq, Repr

/-- The all-zero initial state: `ToggleCount::default()` decodes to
`{side: Left, count: 0}` and `remaining_readers` starts at `0`. -/
def Sys.init : Sys :=
  { side := .Left, count := 0, drain := 0, guards := [], writer := .idle }

/-- One atomic state-changing step of the protocol. -/
inductive Step : Sys → Sys → Prop where
  /-- `Reader::try_lock`, successful compare-and-swap: the loaded count
  passed the `usize::max_value() - 1` check, the count is incremented and a
  guard attached to the current side comes alive. -/
  | reader_lock (s : Sys) (h : s.count ≠ USIZE_MAX - 1) :
      Step s { s with count := s.count + 1, guards := s.side :: s.guards }
  /-- `ReadGuard` drop, current-side path: the successful compare-and-swap
  decrements the count and the guard dies. -/
  | reader_drop_active (s : Sys) (g : Side) (hmem : g ∈ s.guards)
      (hside : g = s.side) :
      Step s { s with count := s.count - 1, guards := s.guards.erase g }
  /-- `ReadGuard` drop, stale path: the loaded side differs from the guard's,
  so the drain counter is decremented (wrapping `fetch_sub`). -/
  | reader_drop_stale (s : Sys) (g : Side) (hmem : g ∈ s.guards)
      (hside : g ≠ s.side) :
      Step s { s with drain := usub s.drain 1, guards := s.guards.erase g }
  /-- `Writer::try_lock`, successful compare-and-swap of the drain counter
  from `0` to the sentinel. -/
  | writer_lock (s : Sys) (hw : s.writer = .idle) (h : s.drain = 0) :
      Step s { s with drain := USIZE_MAX, writer := .locked s.side.not }
  /-- `WriteGuard` drop without `activate`: store `0` into the drain
  counter. -/
  | writer_abort (s : Sys) (w : Side) (hw : s.writer = .locked w) :
      Step s { s with drain := 0, writer := .idle }
  /-- `WriteGuard::activate`, the toggle swap: install
  `{side: writing_to, count: 0}` and capture the previous state. -/
  | activate_swap (s : Sys) (w : Side) (hw : s.writer = .locked w) :
      Step s { s with side := w, count := 0, writer := .midActivate s.count }
  /-- `WriteGuard::activate`, the successful installation compare-and-swap:
  the drain counter still holds the loop's last observation, so it takes
  `original.count - (usize::max_value() - observed)`. -/
  | install (s : Sys) (c : Nat) (hw : s.writer = .midActivate c) :
      Step s { s with drain := c - (USIZE_MAX - s.drain), writer := .idle }

/-- States reachable from the initial all-zero state. -/
inductive Reachable : Sys → Prop where
  | init : Reachable Sys.init
  | step {s s2 : Sys} : Reachable s → Step s s2 → Reachable s2

/-- The number of live guards attached to the currently inactive side
(stale readers). -/
def Sys.stale (s : Sys) : Nat := s.guards.count s.side.not

/-- The protocol invariant: the toggle count equals the number of live
guards on the active side and stays below the reserved sentinel region, and
the drain counter agrees with the writer's control point — equal to the
stale-guard count while no writer is mid-protocol, pinned at the sentinel
while the writer holds its guard (with no stale guards left), and equal to
the sentinel minus the stale guards already drained while the installation
loop runs. -/
def Inv (s : Sys) : Prop :=
  s.count = s.guards.count s.side ∧
  s.count ≤ USIZE_MAX - 1 ∧
  (s.writer = .idle → s.drain = s.stale ∧ s.stale ≤ USIZE_MAX - 1) ∧
  (∀ w, s.writer = .locked w → s.drain = USIZE_MAX ∧ s.stale = 0 ∧ w = s.side.not) ∧
  (∀ c, s.writer = .midActivate c → s.stale ≤ c ∧ c ≤ USIZE_MAX - 1 ∧
      s.drain = USIZE_MAX - (c - s.stale))

theorem Side.not_ne (s : Side) : s.not ≠ s := by
  cases s <;> simp [Side.not]

theorem Inv_init : Inv Sys.init := by
  refine ⟨rfl, Nat.zero_le _, fun _ => ⟨rfl, Nat.zero_le _⟩, ?_, ?_⟩
  · intro w hw
    cases hw
  · intro c hc
    cases hc

theorem Inv_step {s s2 : Sys} (hinv : Inv s) (hstep : Step s s2) : Inv s2 := by
  obtain ⟨h1, h2, hidle, hlocked, hmid⟩ := hinv
  cases hstep with
  | reader_lock h =>
    have hcnt : (s.side :: s.guards).count s.side = s.guards.count s.side + 1 :=
      List.count_cons_self _ _
    have hstale : (s.side :: s.guards).count s.side.not = s.guards.count s.side.not :=
      List.count_cons_of_ne (Side.not_ne s.side) _
    refine ⟨?_, ?_, ?_, ?_, ?_⟩
    · dsimp only
      rw [hcnt, h1]
    · dsimp only
      omega
    · intro hw
      obtain ⟨hd, hst⟩ := hidle hw
      dsimp only [Sys.stale] at *
      rw [hstale]
      exact ⟨hd, hst⟩
    · intro w hw
      obtain ⟨hd, hst, hws⟩ := hlocked w hw
      dsimp only [Sys.stale] at *
      rw [hstale]
      exact ⟨hd, hst, hws⟩
    · intro c hc
      obtain ⟨hsc, hcm, hd⟩ := hmid c hc
      dsimp only [Sys.stale] at *
      rw [hstale]
      exact ⟨hsc, hcm, hd⟩
  | reader_drop_active g hmem hside =>
    subst hside
    have hcnt : (s.guards.erase s.side).count s.side = s.guards.count s.side - 1 :=
      List.count_erase_self _ _
    have hstale : (s.guards.erase s.side).count s.side.not = s.guards.count s.side.not :=
      List.count_erase_of_ne (Side.not_ne s.side) _
    refine ⟨?_, ?_, ?_, ?_, ?_⟩
    · dsimp only
      rw [hcnt, h1]
    · dsimp only
      omega
    · intro hw
      obtain ⟨hd, hst⟩ := hidle hw
      dsimp only [Sys.stale] at *
      rw [hstale]
      exact ⟨hd, hst⟩
    · intro w hw
      obtain ⟨hd, hst, hws⟩ := hlocked w hw
      dsimp only [Sys.stale] at *
      rw [hstale]
      exact ⟨hd, hst, hws⟩
    · intro c hc
      obtain ⟨hsc, hcm, hd⟩ := hmid c hc
      dsimp only [Sys.stale] at *
      rw [hstale]
      exact ⟨hsc, hcm, hd⟩
  | reader_drop_stale g hmem hside =>
    have hg := Side.eq_not_of_ne hside
    subst hg
    have hstale1 : (s.guards.erase s.side.not).count s.side.not
        = s.guards.count s.side.not - 1 := List.count_erase_self _ _
    have hcnt : (s.guards.erase s.side.not).count s.side = s.guards.count s.side :=
      List.count_erase_of_ne (Side.not_ne s.side).symm _
    have hge1 : 1 ≤ s.guards.count s.side.not := List.count_pos_iff.mpr hmem
    refine ⟨?_, h2, ?_, ?_, ?_⟩
    · dsimp only
      rw [hcnt]
      exact h1
    · intro hw
      obtain ⟨hd, hst⟩ := hidle hw
      dsimp only [Sys.stale] at *
      have hlt : s.drain < WORD := by
        simp only [USIZE_MAX, WORD] at *
        omega
      rw [hstale1, usub_one (by omega) hlt]
      exact ⟨by omega, by omega⟩
    · intro w hw
      obtain ⟨hd, hst, hws⟩ := hlocked w hw
      dsimp only [Sys.stale] at hst
      exact absurd hst (by omega)
    · intro c hc
      obtain ⟨hsc, hcm, hd⟩ := hmid c hc
      dsimp only [Sys.stale] at *
      have hlt : s.drain < WORD := by
        simp only [USIZE_MAX, WORD] at *
        omega
      have hge : 1 ≤ s.drain := by
        simp only [USIZE_MAX] at *
        omega
      rw [hstale1, usub_one hge hlt]
      refine ⟨by omega, hcm, ?_⟩
      simp only [USIZE_MAX] at *
      omega
  | writer_lock hw h =>
    obtain ⟨hd, hst⟩ := hidle hw
    refine ⟨h1, h2, ?_, ?_, ?_⟩
    · intro hw2
      dsimp only at hw2
      cases hw2
    · intro w hw2
      dsimp only at hw2
      cases hw2
      dsimp only [Sys.stale] at *
      exact ⟨rfl, by omega, rfl⟩
    · intro c hc
      dsimp only at hc
      cases hc
  | writer_abort w hw =>
    obtain ⟨hd, hst, hws⟩ := hlocked w hw
    refine ⟨h1, h2, ?_, ?_, ?_⟩
    · intro _
      dsimp only [Sys.stale] at *
      exact ⟨by omega, by omega⟩
    · intro w2 hw2
      dsimp only at hw2
      cases hw2
    · intro c hc
      dsimp only at hc
      cases hc
  | activate_swap w hw =>
    obtain ⟨hd, hst, hws⟩ := hlocked w hw
    subst hws
    have hnn : s.side.not.not = s.side := Side.not_not s.side
    refine ⟨?_, ?_, ?_, ?_, ?_⟩
    · dsimp only [Sys.stale] at *
      omega
    · dsimp only
      omega
    · intro hw2
      dsimp only at hw2
      cases hw2
    · intro w2 hw2
      dsimp only at hw2
      cases hw2
    · intro c hc
      dsimp only at hc
      cases hc
      dsimp only [Sys.stale] at *
      rw [hnn]
      refine ⟨by omega, h2, by omega⟩
  | install c hw =>
    obtain ⟨hsc, hcm, hd⟩ := hmid c hw
    refine ⟨h1, h2, ?_, ?_, ?_⟩
    · intro _
      dsimp only [Sys.stale] at *
      simp only [USIZE_MAX] at *
      exact ⟨by omega, by omega⟩
    · intro w2 hw2
      dsimp only at hw2
      cases hw2
    · intro c2 hc2
      dsimp only at hc2
      cases hc2

/-- Invariant holds at every reachable state. -/
theorem Inv_reachable {s : Sys} (h : Reachable s) : Inv s := by
  induction h with
  | init => exact Inv_init
  | step _ hst ih => exact Inv_step ih hst

/-! ### Behaviour of `Reader::try_lock` -/

theorem reader_try_lock_exhausted (s : DState) (interfere : Option Nat)
    (h : (State.from_usize s.toggle).count = USIZE_MAX - 1) :
    reader_try_lock s interfere = .error .exhausted := by
  simp only [reader_try_lock]
  rw [if_pos h]

theorem reader_try_lock_success (s : DState) (interfere : Option Nat)
    (hcell : interfere.getD s.toggle = s.toggle)
    (hcanon : s.toggle < WORD)
    (hne : (State.from_usize s.toggle).count ≠ USIZE_MAX - 1) :
    reader_try_lock s interfere = .ok
      ({ reading_from := (State.from_usize s.toggle).side,
         buffer := s.buffer_ptr (State.from_usize s.toggle).side },
       { s with toggle := (State.mk (State.from_usize s.toggle).side ((State.from_usize s.toggle).count + 1)).to_usize }) := by
  simp only [reader_try_lock, ToggleCount.compare_and_swap, hcell]
  rw [if_neg hne, if_pos (to_usize_from_usize s.toggle hcanon).symm]
  simp

theorem reader_try_lock_contended (s : DState) (t : Nat)
    (hs : s.toggle < WORD) (ht : t < WORD) (htne : t ≠ s.toggle)
    (hne : (State.from_usize s.toggle).count ≠ USIZE_MAX - 1) :
    reader_try_lock s (some t) = .error .contended := by
  have hword : t ≠ (State.from_usize s.toggle).to_usize := by
    rw [to_usize_from_usize s.toggle hs]
    exact htne
  have hdec : State.from_usize t ≠ State.from_usize s.toggle := by
    intro heq
    apply htne
    calc t = (State.from_usize t).to_usize := (to_usize_from_usize t ht).symm
    _ = (State.from_usize s.toggle).to_usize := by rw [heq]
    _ = s.toggle := to_usize_from_usize s.toggle hs
  simp only [reader_try_lock, ToggleCount.compare_and_swap, Option.getD]
  rw [if_neg hne, if_neg hword]
  simp [hdec]

/-- C9: every decoded toggle state has `count ≤ MASK`, and `MASK` is
strictly below `usize::max_value() - 1`; consequently the overflow check in
`Reader::try_lock` never fires — the `Exhausted` failure branch is
unreachable from any loadable packed word. -/
theorem c9_exhausted_unreachable :
    (∀ v : Nat, (State.from_usize v).count ≤ MASK) ∧
    MASK < USIZE_MAX - 1 ∧
    (∀ (s : DState) (interfere : Option Nat),
      reader_try_lock s interfere ≠ .error .exhausted) := by
  refine ⟨from_usize_count_le, by simp only [MASK, USIZE_MAX]; omega, ?_⟩
  intro s interfere
  have hne : (State.from_usize s.toggle).count ≠ USIZE_MAX - 1 := by
    have := from_usize_count_le s.toggle
    simp only [MASK, USIZE_MAX] at *
    omega
  simp only [reader_try_lock, ToggleCount.compare_and_swap]
  rw [if_neg hne]
  split <;> split <;> simp

/-- C5: `Reader::try_lock` loads the toggle word once; were the loaded
count at `usize::max_value() - 1` it would fail `Exhausted`; otherwise it
attempts exactly one compare-and-swap from the observed state to the same
side with the count incremented, failing `Contended` exactly when a
concurrent thread changed the word in between, and on success returning a
guard attached to the observed side. -/
theorem c5_reader_try_lock (s : DState) (t : Nat)
    (hs : s.toggle < WORD) (ht : t < WORD) :
    ((State.from_usize s.toggle).count = USIZE_MAX - 1 →
       reader_try_lock s (some t) = .error .exhausted) ∧
    ((State.from_usize s.toggle).count ≠ USIZE_MAX - 1 →
       (t ≠ s.toggle → reader_try_lock s (some t) = .error .contended) ∧
       (t = s.toggle → reader_try_lock s (some t) = .ok
          ({ reading_from := (State.from_usize s.toggle).side,
             buffer := s.buffer_ptr (State.from_usize s.toggle).side },
           { s with toggle := (State.mk (State.from_usize s.toggle).side ((State.from_usize s.toggle).count + 1)).to_usize }))) := by
  refine ⟨fun h => reader_try_lock_exhausted s (some t) h, fun hne => ⟨?_, ?_⟩⟩
  · intro htne
    exact reader_try_lock_contended s t hs ht htne hne
  · intro hteq
    subst hteq
    exact reader_try_lock_success s (some s.toggle) rfl hs hne

/-- A tiny concrete doublet state used to instantiate theorems with
hypotheses. -/
def sampleD : DState :=
  { toggle := 0, drain := 0, size := 1, left_buffer := [0], right_buffer := [0] }

theorem c5_reader_try_lock_witness :
    sampleD.toggle < WORD ∧ (1 : Nat) < WORD ∧
    (((State.from_usize sampleD.toggle).count = USIZE_MAX - 1 →
       reader_try_lock sampleD (some 1) = .error .exhausted) ∧
     ((State.from_usize sampleD.toggle).count ≠ USIZE_MAX - 1 →
       ((1 : Nat) ≠ sampleD.toggle → reader_try_lock sampleD (some 1) = .error .contended) ∧
       ((1 : Nat) = sampleD.toggle → reader_try_lock sampleD (some 1) = .ok
          ({ reading_from := (State.from_usize sampleD.toggle).side,
             buffer := sampleD.buffer_ptr (State.from_usize sampleD.toggle).side },
           { sampleD with toggle := (State.mk (State.from_usize sampleD.toggle).side ((State.from_usize sampleD.toggle).count + 1)).to_usize })))) :=
  ⟨by norm_num [sampleD, WORD], by norm_num [WORD],
   c5_reader_try_lock sampleD 1 (by norm_num [sampleD, WORD]) (by norm_num [WORD])⟩

/-! ### Behaviour of `Writer::try_lock` and the write guard -/

/-- C4: `Writer::try_lock` performs a single compare-and-swap of the drain
counter from `0` to the sentinel `usize::max_value()` and succeeds exactly
when the observed drain was `0` — it fails `Contended` whenever the gate is
held by a writer or stale readers remain (the `Locked` / `Draining(n>0)`
states); on success the guard targets the flip of the currently active side
and exposes that inactive buffer, whose length is the doublet's configured
buffer size. -/
theorem c4_writer_try_lock (s : DState) (hwf : s.WF) :
    (s.drain ≠ 0 → writer_try_lock s = .error .contended) ∧
    (s.drain = 0 →
       writer_try_lock s = .ok
         ({ writer_present := true,
            writing_to := (State.from_usize s.toggle).side.not,
            buffer := s.buffer_ptr (State.from_usize s.toggle).side.not },
          { s with drain := USIZE_MAX }) ∧
       (s.buffer_ptr (State.from_usize s.toggle).side.not).length = s.size) := by
  obtain ⟨hl, hr, _, _⟩ := hwf
  constructor
  · intro hne
    simp only [writer_try_lock]
    rw [if_neg (by omega)]
  · intro h0
    constructor
    · simp only [writer_try_lock]
      rw [if_pos h0.symm]
    · cases hside : (State.from_usize s.toggle).side.not <;>
        simp [DState.buffer_ptr, hl, hr]

theorem c4_writer_try_lock_witness :
    sampleD.WF ∧
    ((sampleD.drain ≠ 0 → writer_try_lock sampleD = .error .contended) ∧
     (sampleD.drain = 0 →
        writer_try_lock sampleD = .ok
          ({ writer_present := true,
             writing_to := (State.from_usize sampleD.toggle).side.not,
             buffer := sampleD.buffer_ptr (State.from_usize sampleD.toggle).side.not },
           { sampleD with drain := USIZE_MAX }) ∧
        (sampleD.buffer_ptr (State.from_usize sampleD.toggle).side.not).length = sampleD.size)) :=
  ⟨⟨rfl, rfl, by norm_num [sampleD, WORD], by norm_num [sampleD, WORD]⟩,
   c4_writer_try_lock sampleD
     ⟨rfl, rfl, by norm_num [sampleD, WORD], by norm_num [sampleD, WORD]⟩⟩

/-- C6: dropping a `WriteGuard` on which `activate` never ran stores `0`
into the drain counter, releasing the writer gate unconditionally, and
leaves every other component of the shared state — in particular the packed
toggle word, hence both the active side and the reader count — exactly as
it was before the writer acquisition. -/
theorem c6_abort (s : DState) (h : s.drain = 0) :
    writer_try_lock s = .ok
      ({ writer_present := true,
         writing_to := (State.from_usize s.toggle).side.not,
         buffer := s.buffer_ptr (State.from_usize s.toggle).side.not },
       { s with drain := USIZE_MAX }) ∧
    write_guard_drop
      { writer_present := true,
        writing_to := (State.from_usize s.toggle).side.not,
        buffer := s.buffer_ptr (State.from_usize s.toggle).side.not }
      { s with drain := USIZE_MAX } = s := by
  constructor
  · simp only [writer_try_lock]
    rw [if_pos h.symm]
  · simp only [write_guard_drop]
    rw [if_pos trivial]
    cases s
    simp_all

theorem c6_abort_witness :
    sampleD.drain = 0 ∧
    (writer_try_lock sampleD = .ok
       ({ writer_present := true,
          writing_to := (State.from_usize sampleD.toggle).side.not,
          buffer := sampleD.buffer_ptr (State.from_usize sampleD.toggle).side.not },
        { sampleD with drain := USIZE_MAX }) ∧
     write_guard_drop
       { writer_present := true,
         writing_to := (State.from_usize sampleD.toggle).side.not,
         buffer := sampleD.buffer_ptr (State.from_usize sampleD.toggle).side.not }
       { sampleD with drain := USIZE_MAX } = sampleD) :=
  ⟨rfl, c6_abort sampleD rfl⟩

/-- C10: in every sequential interleaving of the protocol's atomic
operations from the initial all-zero state, the two unguarded subtractions
are safe: whenever a live read guard's release observes the toggle side
still equal to the side it attached to, the observed count is at least 1
(so `new.count -= 1` cannot underflow), and in every state the installation
loop of `activate` can observe, the drain value `d` satisfies
`usize::max_value() - d ≤ original.count` (so
`original.count - (usize::max_value() - prev_readers)` cannot underflow,
the seed `prev_readers = usize::max_value()` being trivially safe). -/
theorem c10_no_underflow (s : Sys) (h : Reachable s) :
    (∀ g ∈ s.guards, g = s.side → 1 ≤ s.count) ∧
    (∀ c, s.writer = .midActivate c → USIZE_MAX - s.drain ≤ c) := by
  obtain ⟨h1, _, _, _, hmid⟩ := Inv_reachable h
  constructor
  · intro g hmem hside
    subst hside
    rw [h1]
    exact List.count_pos_iff.mpr hmem
  · intro c hc
    obtain ⟨hsc, hcm, hd⟩ := hmid c hc
    simp only [USIZE_MAX] at *
    omega

theorem c10_no_underflow_witness :
    (∀ g ∈ Sys.init.guards, g = Sys.init.side → 1 ≤ Sys.init.count) ∧
    (∀ c, Sys.init.writer = .midActivate c → USIZE_MAX - Sys.init.drain ≤ c) :=
  c10_no_underflow Sys.init Reachable.init

/-! ### Behaviour of `WriteGuard::activate` -/

/-- The stale-reader decrements the installation loop actually absorbs: the
interference trace is consumed up to the first quiet window (a `0` entry
means no decrement slipped in since the last observation, so the pending
compare-and-swap succeeds). -/
def consumed_decs : List Nat → Nat
  | [] => 0
  | k :: rest => if k = 0 then 0 else k + consumed_decs rest

theorem consumed_decs_le_sum (decs : List Nat) : consumed_decs decs ≤ decs.sum := by
  induction decs with
  | nil => simp [consumed_decs]
  | cons k rest ih =>
    simp only [consumed_decs, List.sum_cons]
    split
    · omega
    · omega

/-- What the installation loop computes when entered with `prev` equal to
the current drain value (as at the seed, where both are the sentinel). -/
theorem activate_install_eq (count : Nat) (decs : List Nat) :
    ∀ drain : Nat, drain < WORD → decs.sum ≤ drain →
      activate_install count drain drain decs
        = count - ((USIZE_MAX - drain) + consumed_decs decs) := by
  induction decs with
  | nil =>
    intro drain hw hs
    simp [activate_install, consumed_decs]
  | cons k rest ih =>
    intro drain hw hs
    simp only [List.sum_cons] at hs
    have hk : k ≤ drain := by omega
    have husub : usub drain k = drain - k := usub_eq_sub hk hw
    by_cases h0 : k = 0
    · subst h0
      have h00 : usub drain 0 = drain := usub_eq_sub (Nat.zero_le _) hw
      have hunf : activate_install count drain drain (0 :: rest)
          = if drain = usub drain 0 then count - (USIZE_MAX - usub drain 0)
            else activate_install count (usub drain 0) (usub drain 0) rest := rfl
      rw [hunf, h00, if_pos rfl]
      have hcd : consumed_decs (0 :: rest) = 0 := by
        simp [consumed_decs]
      rw [hcd]
      omega
    · have hne : drain ≠ drain - k := by omega
      simp only [activate_install, husub]
      rw [if_neg hne, ih (drain - k) (by omega) (by omega)]
      have hc : consumed_decs (k :: rest) = k + consumed_decs rest := by
        simp [consumed_decs, h0]
      rw [hc]
      have hle : drain ≤ USIZE_MAX := by
        simp only [USIZE_MAX, WORD] at *
        omega
      omega

/-- C2: `activate` swaps the toggle word to `{side: writing_to, count: 0}`,
capturing the previous state as the swap's return value, and installs into
the drain counter — through the compare-and-swap retry loop seeded with the
sentinel — the value `original.count - k`, where `k` is the number of
stale-reader decrements that hit the drain counter between the toggle swap
and the successful installation. -/
theorem c2_activate (s : DState) (w : Side) (decs : List Nat)
    (hd : s.drain = USIZE_MAX) (hsum : decs.sum ≤ s.drain) :
    activate s w decs =
      { s with toggle := (State.mk w 0).to_usize,
               drain := (State.from_usize s.toggle).count - consumed_decs decs } ∧
    consumed_decs decs ≤ decs.sum := by
  refine ⟨?_, consumed_decs_le_sum decs⟩
  rw [hd] at hsum
  simp only [activate]
  rw [hd, activate_install_eq _ decs USIZE_MAX (by simp only [USIZE_MAX, WORD]; omega) hsum]
  rw [Nat.sub_self, Nat.zero_add]

theorem c2_activate_witness :
    ({ sampleD with drain := USIZE_MAX } : DState).drain = USIZE_MAX ∧
    ([2, 0] : List Nat).sum ≤ ({ sampleD with drain := USIZE_MAX } : DState).drain ∧
    (activate { sampleD with drain := USIZE_MAX } Side.Right [2, 0] =
       { { sampleD with drain := USIZE_MAX } with
           toggle := (State.mk Side.Right 0).to_usize,
           drain := (State.from_usize ({ sampleD with drain := USIZE_MAX } : DState).toggle).count
             - consumed_decs [2, 0] } ∧
     consumed_decs [2, 0] ≤ ([2, 0] : List Nat).sum) :=
  ⟨rfl, by norm_num [sampleD, USIZE_MAX],
   c2_activate { sampleD with drain := USIZE_MAX } Side.Right [2, 0] rfl
     (by norm_num [sampleD, USIZE_MAX])⟩

/-! ### The quiescent round trip -/

theorem write_buffer_ptr_self (s : DState) (side : Side) (v : List Nat) :
    (write_buffer s side v).buffer_ptr side = v := by
  cases side <;> rfl

theorem activate_buffer_ptr (s : DState) (w : Side) (decs : List Nat) (side : Side) :
    (activate s w decs).buffer_ptr side = s.buffer_ptr side := by
  cases side <;> rfl

/-- The quiescent round trip: acquire the writer, write `v` through the
guard's mutable slice, commit with `activate`, then acquire a reader and
return its slice (`none` if an acquisition fails).  Sequential: both
interference traces are empty. -/
def round_trip (s : DState) (v : List Nat) : Option (List Nat) :=
  match writer_try_lock s with
  | .error _ => none
  | .ok (g, s1) =>
    let s2 := write_buffer s1 g.writing_to v
    let s3 := activate s2 g.writing_to []
    match reader_try_lock s3 none with
    | .error _ => none
    | .ok (rg, _) => some rg.buffer

/-- C1: from any quiescent state (drain counter `0`, no live guards — the
run is sequential), writing `v` into the acquired write guard's buffer and
calling `activate`, then acquiring a read guard, yields a slice equal to
`v`. -/
theorem c1_round_trip (s : DState) (v : List Nat) (h : s.drain = 0) :
    round_trip s v = some v := by
  have hw : writer_try_lock s = .ok
      ({ writer_present := true,
         writing_to := (State.from_usize s.toggle).side.not,
         buffer := s.buffer_ptr (State.from_usize s.toggle).side.not },
       { s with drain := USIZE_MAX }) := by
    simp only [writer_try_lock]
    rw [if_pos h.symm]
  simp only [round_trip]
  rw [hw]
  dsimp only
  have htogg : (activate (write_buffer { s with drain := USIZE_MAX }
      (State.from_usize s.toggle).side.not v)
      (State.from_usize s.toggle).side.not []).toggle
      = (State.mk (State.from_usize s.toggle).side.not 0).to_usize := rfl
  have hcle : (State.mk (State.from_usize s.toggle).side.not 0).count ≤ MASK :=
    Nat.zero_le _
  have hfu : State.from_usize ((State.mk (State.from_usize s.toggle).side.not 0).to_usize)
      = State.mk (State.from_usize s.toggle).side.not 0 :=
    from_usize_to_usize _ hcle
  have hr := reader_try_lock_success
    (activate (write_buffer { s with drain := USIZE_MAX }
      (State.from_usize s.toggle).side.not v)
      (State.from_usize s.toggle).side.not []) none rfl
    (by rw [htogg]; exact to_usize_lt _ hcle)
    (by rw [htogg, hfu]; show (0 : Nat) ≠ USIZE_MAX - 1; simp [USIZE_MAX])
  rw [htogg, hfu] at hr
  rw [hr]
  dsimp only
  rw [activate_buffer_ptr, write_buffer_ptr_self]

theorem c1_round_trip_witness :
    sampleD.drain = 0 ∧ round_trip sampleD [55] = some [55] :=
  ⟨rfl, c1_round_trip sampleD [55] rfl⟩

/-! ### Behaviour of the `ReadGuard` drop -/

/-- C3: a `ReadGuard`'s drop runs the release protocol exactly once: either
it observes a toggle word whose side differs from the side the guard
attached to — breaking out, leaving the toggle word as observed and
decrementing the drain counter by exactly one — or it observes a word with
its own side and its compare-and-swap installs that word with the count
decremented by one and the side preserved, leaving the drain counter
untouched.  The observed word is the initially loaded one or one installed
by the interfering threads; failed compare-and-swaps only reload. -/
theorem c3_read_guard_drop (g : Side) (interf : List Nat) :
    ∀ toggle drain : Nat, toggle < WORD → (∀ t ∈ interf, t < WORD) →
    (∃ t, (t = toggle ∨ t ∈ interf) ∧ (State.from_usize t).side ≠ g ∧
       read_guard_drop g toggle drain interf = (t, usub drain 1)) ∨
    (∃ t, (t = toggle ∨ t ∈ interf) ∧ (State.from_usize t).side = g ∧
       read_guard_drop g toggle drain interf
         = ((State.mk g ((State.from_usize t).count - 1)).to_usize, drain)) := by
  induction interf with
  | nil =>
    intro toggle drain hc _
    by_cases hside : (State.from_usize toggle).side = g
    · right
      refine ⟨toggle, Or.inl rfl, hside, ?_⟩
      simp [read_guard_drop, hside]
    · left
      exact ⟨toggle, Or.inl rfl, hside, by simp [read_guard_drop, hside]⟩
  | cons t rest ih =>
    intro toggle drain hc hint
    have ht : t < WORD := hint t (by simp)
    have htrest : ∀ x ∈ rest, x < WORD := fun x hx => hint x (by simp [hx])
    by_cases hside : (State.from_usize toggle).side = g
    · by_cases hcas : t = (State.from_usize toggle).to_usize
      · right
        have hteq : t = toggle := by rw [hcas, to_usize_from_usize toggle hc]
        subst hteq
        refine ⟨t, Or.inl rfl, hside, ?_⟩
        simp [read_guard_drop, ToggleCount.compare_and_swap, hside, ← hcas]
      · have hdecne : State.from_usize t ≠ State.from_usize toggle := by
          intro heq
          apply hcas
          rw [← to_usize_from_usize t ht, heq, to_usize_from_usize toggle hc]
        have hunf : read_guard_drop g toggle drain (t :: rest)
            = read_guard_drop g t drain rest := by
          simp only [read_guard_drop, ToggleCount.compare_and_swap]
          rw [if_neg (by simp [hside]), if_neg hcas]
          dsimp only
          rw [if_neg hdecne]
        rw [hunf]
        rcases ih t drain ht htrest with ⟨u, hu, hus, hur⟩ | ⟨u, hu, hus, hur⟩
        · refine Or.inl ⟨u, Or.inr ?_, hus, hur⟩
          rcases hu with rfl | h
          · exact List.mem_cons_self _ _
          · exact List.mem_cons_of_mem _ h
        · refine Or.inr ⟨u, Or.inr ?_, hus, hur⟩
          rcases hu with rfl | h
          · exact List.mem_cons_self _ _
          · exact List.mem_cons_of_mem _ h
    · left
      exact ⟨toggle, Or.inl rfl, hside, by simp [read_guard_drop, hside]⟩

theorem c3_read_guard_drop_witness :
    (0 : Nat) < WORD ∧ (∀ t ∈ ([] : List Nat), t < WORD) ∧
    ((∃ t, (t = 0 ∨ t ∈ ([] : List Nat)) ∧ (State.from_usize t).side ≠ Side.Left ∧
        read_guard_drop Side.Left 0 5 [] = (t, usub 5 1)) ∨
     (∃ t, (t = 0 ∨ t ∈ ([] : List Nat)) ∧ (State.from_usize t).side = Side.Left ∧
        read_guard_drop Side.Left 0 5 []
          = ((State.mk Side.Left ((State.from_usize t).count - 1)).to_usize, 5))) :=
  ⟨by norm_num [WORD], by simp,
   c3_read_guard_drop Side.Left [] 0 5 (by norm_num [WORD]) (by simp)⟩

/-! ### The raw layout -/

/-- C7: `raw_size(n)` equals `header_size() + 2 * n`; `from_raw_parts`
fails — the `InvalidLayout` condition — exactly when the region is not
strictly larger than the header or the remainder is odd; on success each
buffer gets `(total_size - header_size()) / 2` bytes, so a region of
`raw_size n` bytes with `n ≥ 1` yields buffer size `n`. -/
theorem c7_raw_layout :
    (∀ n, raw_size n = header_size + 2 * n) ∧
    (∀ sz, from_raw_parts sz = .error () ↔
       sz ≤ header_size ∨ (sz - header_size) % 2 ≠ 0) ∧
    (∀ sz layout, from_raw_parts sz = .ok layout →
       layout.size = (sz - header_size) / 2) ∧
    (∀ n, 1 ≤ n → from_raw_parts (raw_size n)
       = .ok { size := n, left_offset := header_size,
               right_offset := header_size + n }) := by
  refine ⟨fun n => by simp only [raw_size]; omega, ?_, ?_, ?_⟩
  · intro sz
    simp only [from_raw_parts]
    by_cases h1 : sz ≤ header_size
    · rw [if_pos h1]
      simp [h1]
    · rw [if_neg h1]
      by_cases h2 : 0 ≠ (sz - header_size) % 2
      · rw [if_pos h2]
        simp only [header_size] at *
        simp [h1]
        omega
      · rw [if_neg h2]
        simp only [header_size] at *
        simp [h1]
        omega
  · intro sz layout
    simp only [from_raw_parts]
    by_cases h1 : sz ≤ header_size
    · rw [if_pos h1]
      intro hcontra
      cases hcontra
    · rw [if_neg h1]
      by_cases h2 : 0 ≠ (sz - header_size) % 2
      · rw [if_pos h2]
        intro hcontra
        cases hcontra
      · rw [if_neg h2]
        intro hok
        injection hok with h
        subst h
        rfl
  · intro n hn
    have hdiv : (header_size + n * 2 - header_size) / 2 = n := by
      simp only [header_size]
      omega
    simp only [from_raw_parts, raw_size]
    rw [if_neg (by simp only [header_size]; omega)]
    rw [if_neg (by simp only [header_size]; omega)]
    rw [hdiv]

theorem c7_raw_layout_witness :
    (1 : Nat) ≤ 2 ∧
    from_raw_parts (raw_size 2) = .ok
      { size := 2, left_offset := header_size, right_offset := header_size + 2 } :=
  ⟨by norm_num, c7_raw_layout.2.2.2 2 (by norm_num)⟩

theorem c9_exhausted_unreachable_witness :
    reader_try_lock sampleD none ≠ .error .exhausted :=
  c9_exhausted_unreachable.2.2 sampleD none

/-! ### The owning allocation -/

theorem take_writer_flag (o : OwnedDoublet) : ((o.take_writer).2).has_writer = false := by
  by_cases h : o.has_writer
  · simp [OwnedDoublet.take_writer, h]
  · simp [OwnedDoublet.take_writer, h]

/-- C8: on a fresh allocation the first `take_writer` call returns a writer
view (and consumes the flag), every later call returns `None`, while
`reader` may be called at any point, each call yielding a view over the
very same shared header and buffers (and leaving the allocation
untouched). -/
theorem c8_take_writer (size : Nat) (n : Nat) :
    (OwnedDoublet.new size).nth_take_writer 0
      = some (OwnedDoublet.new size).make_doublet ∧
    (1 ≤ n → (OwnedDoublet.new size).nth_take_writer n = none) ∧
    (∀ o : OwnedDoublet, o.reader = o.make_doublet ∧
       o.reader.left_buffer = o.left_buffer ∧
       o.reader.right_buffer = o.right_buffer ∧
       o.reader.toggle = o.toggle ∧
       o.reader.drain = o.remaining_readers ∧
       ((o.take_writer).2).reader.left_buffer = o.left_buffer ∧
       ((o.take_writer).2).reader.right_buffer = o.right_buffer) := by
  refine ⟨rfl, ?_, ?_⟩
  · intro hn
    obtain ⟨m, rfl⟩ : ∃ m, n = m + 1 := ⟨n - 1, by omega⟩
    have hflag : ((OwnedDoublet.new size).after_take_writer (m + 1)).has_writer = false := by
      show ((((OwnedDoublet.new size).after_take_writer m).take_writer).2).has_writer = false
      exact take_writer_flag _
    simp [OwnedDoublet.nth_take_writer, OwnedDoublet.take_writer, hflag]
  · intro o
    by_cases h : o.has_writer
    · refine ⟨rfl, rfl, rfl, rfl, rfl, ?_, ?_⟩ <;>
        simp [OwnedDoublet.take_writer, OwnedDoublet.reader, OwnedDoublet.make_doublet, h]
    · refine ⟨rfl, rfl, rfl, rfl, rfl, ?_, ?_⟩ <;>
        simp [OwnedDoublet.take_writer, OwnedDoublet.reader, OwnedDoublet.make_doublet, h]

theorem c8_take_writer_witness :
    (1 : Nat) ≤ 1 ∧ (OwnedDoublet.new 3).nth_take_writer 1 = none :=
  ⟨Nat.le_refl 1, (c8_take_writer 3 1).2.1 (Nat.le_refl 1)⟩

end Doublet
